import Mathlib

/-!
Shallow embedding of the CHIP-8 / SUPER-CHIP interpreter core
(`src/lib.rs`, `src/cpu/mod.rs`) and proofs about its instruction
semantics, decoder, and run loop.

Modelling conventions:
* Machine integers (`u8`, `u16`, `usize`) are `Nat`, with wrapping made
  explicit (`% 256`, `% 65536`) exactly where the Rust code wraps.
* The 16-entry register file `[u8; 16]` and keypad `[bool; 16]` are total
  functions on `Nat`; every call site in the interpreter indexes them with a
  masked nibble (< 16), matching the Rust in-bounds accesses.
* The 4096-byte RAM is a function `Nat → Nat` accessed only through
  `memRead` / `memWrite`, which return `none` when the address is ≥ 4096 —
  this models the Rust bounds-checked indexing, which panics out of bounds.
* The 128×64 frame buffer is `Nat → Nat → Bool`; the drawing and scrolling
  code only ever touches rows < 64 and columns < 128.
* The `Vec` call stack is a `List` whose head is the top of the `Vec` (its
  last element): `push` is cons, `pop` takes the head.
* Fallible operations (`EXIT`, out-of-bounds panics) return `Option`;
  `none` means the interpreter does not continue.
* `rand::thread_rng().gen::<u8>()` is modelled by an ambient byte stream
  `rng : Nat → Nat` with a cursor `rng_idx` in the core state, and the RPL
  flags file on disk by a `flags_file : Option (List Nat)` field.
-/

namespace Chip8

/-- Pointwise update of a total function on ℕ (register file / memory write). -/
def updateFn (f : Nat → Nat) (i v : Nat) : Nat → Nat :=
  fun j => if j = i then v else f j

/-- Pointwise update of one frame-buffer cell. -/
def updateFb (fb : Nat → Nat → Bool) (r c : Nat) (b : Bool) : Nat → Nat → Bool :=
  fun r' c' => if r' = r ∧ c' = c then b else fb r' c'

/-- Size of the CHIP-8 RAM: 4 KiB (`[u8; 4 * 1024]`). -/
def MEM_SIZE : Nat := 4096

/-- Bounds-checked memory read: `self.cpu.memory[addr]`.  Out-of-bounds
indexing panics in Rust; we return `none`. -/
def memRead (m : Nat → Nat) (addr : Nat) : Option Nat :=
  if addr < MEM_SIZE then some (m addr) else none

/-- Bounds-checked memory write: `self.cpu.memory[addr] = v`. -/
def memWrite (m : Nat → Nat) (addr v : Nat) : Option (Nat → Nat) :=
  if addr < MEM_SIZE then some (updateFn m addr v) else none

/-- The CPU state (`struct Cpu` in `src/cpu/mod.rs`, minus the static
dispatch table, which is pure data). -/
structure Cpu where
  registers : Nat → Nat
  i_register : Nat
  memory : Nat → Nat
  pc : Nat
  stack : List Nat
  store_keypress : Option Nat
  delay_timer : Nat
  sound_timer : Nat

/-- The core state (`struct Chip8Core` in `src/lib.rs`).  The precomputed
audio `wave` samples never feed back into VM semantics and are omitted;
`rng`/`rng_idx` model the thread RNG and `flags_file` the RPL flags file. -/
structure Chip8Core where
  cpu : Cpu
  frame_buffer : Nat → Nat → Bool
  high_resolution : Bool
  keypad_state : Nat → Bool
  wave_idx : Nat
  quirk_memory : Bool
  quirk_shift : Bool
  rng : Nat → Nat
  rng_idx : Nat
  flags_file : Option (List Nat)

/-- Operand `X`: mask `HEX_2 = 0x0F00`, shifted by its 8 trailing zeros. -/
def argX (i : Nat) : Nat := (i &&& 0x0F00) >>> 8

/-- Operand `Y`: mask `HEX_1 = 0x00F0`, shifted by its 4 trailing zeros. -/
def argY (i : Nat) : Nat := (i &&& 0x00F0) >>> 4

/-- Operand `N` (low nibble): mask `HEX_0 = 0x000F`. -/
def argN (i : Nat) : Nat := i &&& 0x000F

/-- Operand `NN` (low byte): mask `HEX_01 = 0x00FF`. -/
def argNN (i : Nat) : Nat := i &&& 0x00FF

/-- Operand `NNN` (low 12 bits): mask `HEX_012 = 0x0FFF`. -/
def argNNN (i : Nat) : Nat := i &&& 0x0FFF

/-- `u8::overflowing_add`: the wrapped sum and the carry bit. -/
def overflowingAdd8 (a b : Nat) : Nat × Bool :=
  ((a + b) % 256, decide (256 ≤ a + b))

/-- `u8::overflowing_sub`: the wrapped difference and the borrow bit. -/
def overflowingSub8 (a b : Nat) : Nat × Bool :=
  ((a + 256 - b) % 256, decide (a < b))

/-- No operation. -/
def nop (c : Chip8Core) : Chip8Core := c

/-- Clear the screen (`cls`). -/
def cls (c : Chip8Core) : Chip8Core :=
  { c with frame_buffer := fun _ _ => false }

/-- Jump to address `NNN` (`jmp`). -/
def jmp (c : Chip8Core) (n : Nat) : Chip8Core :=
  { c with cpu := { c.cpu with pc := n } }

/-- Execute subroutine at `NNN` (`call`): push the current PC, jump. -/
def call (c : Chip8Core) (n : Nat) : Chip8Core :=
  { c with cpu := { c.cpu with stack := c.cpu.pc :: c.cpu.stack, pc := n } }

/-- Return from a subroutine (`ret`): pop the PC; underflow is ignored. -/
def ret (c : Chip8Core) : Chip8Core :=
  match c.cpu.stack with
  | [] => c
  | top :: rest => { c with cpu := { c.cpu with pc := top, stack := rest } }

/-- Scroll the display down by `N % 64` rows (`scd`). -/
def scd (c : Chip8Core) (n0 : Nat) : Chip8Core :=
  let n := n0 % 64
  { c with frame_buffer := fun r col =>
      if r < n then false else c.frame_buffer (r - n) col }

/-- Scroll the display right by 4 pixels (`scr`). -/
def scr (c : Chip8Core) : Chip8Core :=
  { c with frame_buffer := fun r col =>
      if col < 4 then false else c.frame_buffer r (col - 4) }

/-- Scroll the display left by 4 pixels (`scl`). -/
def scl (c : Chip8Core) : Chip8Core :=
  { c with frame_buffer := fun r col =>
      if col < 128 - 4 then c.frame_buffer r (col + 4) else false }

/-- Disable high-resolution mode (`lores`). -/
def lores (c : Chip8Core) : Chip8Core := { c with high_resolution := false }

/-- Enable high-resolution mode (`hires`). -/
def hires (c : Chip8Core) : Chip8Core := { c with high_resolution := true }

/-- Advance the PC past the following instruction (`self.cpu.pc += 2`). -/
def skipNext (c : Chip8Core) : Chip8Core :=
  { c with cpu := { c.cpu with pc := c.cpu.pc + 2 } }

/-- Skip if `VX = NN` (`skpeq`). -/
def skpeq (c : Chip8Core) (x n : Nat) : Chip8Core :=
  if c.cpu.registers x = n then skipNext c else c

/-- Skip if `VX ≠ NN` (`skpne`). -/
def skpne (c : Chip8Core) (x n : Nat) : Chip8Core :=
  if c.cpu.registers x ≠ n then skipNext c else c

/-- Skip if `VX = VY` (`skpeqr`). -/
def skpeqr (c : Chip8Core) (x y : Nat) : Chip8Core :=
  if c.cpu.registers x = c.cpu.registers y then skipNext c else c

/-- Skip if `VX ≠ VY` (`skpner`). -/
def skpner (c : Chip8Core) (x y : Nat) : Chip8Core :=
  if c.cpu.registers x ≠ c.cpu.registers y then skipNext c else c

/-- Jump to `(NNN + V0) % 4096` (`jmpr`; `mem_size` is the memory length). -/
def jmpr (c : Chip8Core) (n : Nat) : Chip8Core :=
  { c with cpu := { c.cpu with pc := (n + c.cpu.registers 0) % MEM_SIZE } }

/-- `VX ← VX + VY`, `VF ← carry` (`addr`); the flag is written second. -/
def addr (c : Chip8Core) (x y : Nat) : Chip8Core :=
  let x_val := c.cpu.registers x
  let y_val := c.cpu.registers y
  let rc := overflowingAdd8 x_val y_val
  let regs := updateFn (updateFn c.cpu.registers x rc.1) 15 (if rc.2 then 1 else 0)
  { c with cpu := { c.cpu with registers := regs } }

/-- `VX ← VX - VY`, `VF ← !borrow` (`subr`); the flag is written second. -/
def subr (c : Chip8Core) (x y : Nat) : Chip8Core :=
  let x_val := c.cpu.registers x
  let y_val := c.cpu.registers y
  let rb := overflowingSub8 x_val y_val
  let regs := updateFn (updateFn c.cpu.registers x rb.1) 15 (if rb.2 then 0 else 1)
  { c with cpu := { c.cpu with registers := regs } }

/-- `VX ← VY - VX`, `VF ← !borrow` (`rsubr`); the flag is written second. -/
def rsubr (c : Chip8Core) (x y : Nat) : Chip8Core :=
  let x_val := c.cpu.registers x
  let y_val := c.cpu.registers y
  let rb := overflowingSub8 y_val x_val
  let regs := updateFn (updateFn c.cpu.registers x rb.1) 15 (if rb.2 then 0 else 1)
  { c with cpu := { c.cpu with registers := regs } }

/-- `VX ← NN` (`mov`). -/
def mov (c : Chip8Core) (x n : Nat) : Chip8Core :=
  { c with cpu := { c.cpu with registers := updateFn c.cpu.registers x n } }

/-- `VX ← VX + NN` wrapping (`add`). -/
def add (c : Chip8Core) (x n : Nat) : Chip8Core :=
  let regs := updateFn c.cpu.registers x ((c.cpu.registers x + n) % 256)
  { c with cpu := { c.cpu with registers := regs } }

/-- `VX ← VY` (`movr`). -/
def movr (c : Chip8Core) (x y : Nat) : Chip8Core :=
  let regs := updateFn c.cpu.registers x (c.cpu.registers y)
  { c with cpu := { c.cpu with registers := regs } }

/-- `I ← NNN` (`movi`). -/
def movi (c : Chip8Core) (n : Nat) : Chip8Core :=
  { c with cpu := { c.cpu with i_register := n } }

/-- Sound timer ← `VX` (`sndr`). -/
def sndr (c : Chip8Core) (x : Nat) : Chip8Core :=
  { c with cpu := { c.cpu with sound_timer := c.cpu.registers x } }

/-- `VX` ← delay timer (`timr`). -/
def timr (c : Chip8Core) (x : Nat) : Chip8Core :=
  let regs := updateFn c.cpu.registers x c.cpu.delay_timer
  { c with cpu := { c.cpu with registers := regs } }

/-- Delay timer ← `VX` (`delr`). -/
def delr (c : Chip8Core) (x : Nat) : Chip8Core :=
  { c with cpu := { c.cpu with delay_timer := c.cpu.registers x } }

/-- `I ←` address of the small font sprite of `VX % 16` (`digit`). -/
def digit (c : Chip8Core) (x : Nat) : Chip8Core :=
  { c with cpu := { c.cpu with i_register := c.cpu.registers x % 16 * 5 } }

/-- `I ←` address of the large font sprite of `VX % 16` (`ldigit`). -/
def ldigit (c : Chip8Core) (x : Nat) : Chip8Core :=
  { c with cpu := { c.cpu with i_register := 128 + c.cpu.registers x % 16 * 10 } }

/-- `I ← I + VX` wrapping at 16 bits (`addi`). -/
def addi (c : Chip8Core) (x : Nat) : Chip8Core :=
  { c with cpu := { c.cpu with i_register :=
      (c.cpu.i_register + c.cpu.registers x) % 65536 } }

/-- Wait for a keypress into `VX` (`key`): set the latch. -/
def key (c : Chip8Core) (x : Nat) : Chip8Core :=
  { c with cpu := { c.cpu with store_keypress := some x } }

/-- Skip if key `VX % 16` is pressed (`skpk`). -/
def skpk (c : Chip8Core) (x : Nat) : Chip8Core :=
  if c.keypad_state (c.cpu.registers x % 16) then skipNext c else c

/-- Skip if key `VX % 16` is not pressed (`skpnk`). -/
def skpnk (c : Chip8Core) (x : Nat) : Chip8Core :=
  if c.keypad_state (c.cpu.registers x % 16) then c else skipNext c

/-- `SHR` (`shr`): the source is `VX` under the shift quirk, else `VY`.
The Rust code writes `VF` FIRST and the destination `VX` second. -/
def shr (c : Chip8Core) (x y : Nat) : Chip8Core :=
  let y_val := if c.quirk_shift then c.cpu.registers x else c.cpu.registers y
  let regs := updateFn (updateFn c.cpu.registers 15 (y_val &&& 0x01)) x (y_val >>> 1)
  { c with cpu := { c.cpu with registers := regs } }

/-- `SHL` (`shl`): the source is `VX` under the shift quirk, else `VY`.
The Rust code writes `VF` FIRST and the destination `VX` second. -/
def shl (c : Chip8Core) (x y : Nat) : Chip8Core :=
  let y_val := if c.quirk_shift then c.cpu.registers x else c.cpu.registers y
  let regs := updateFn (updateFn c.cpu.registers 15 ((y_val &&& 0x80) >>> 7)) x ((y_val <<< 1) % 256)
  { c with cpu := { c.cpu with registers := regs } }

/-- `VX ← VX | VY` (the Rust method is named `or`). -/
def orr (c : Chip8Core) (x y : Nat) : Chip8Core :=
  let regs := updateFn c.cpu.registers x (c.cpu.registers x ||| c.cpu.registers y)
  { c with cpu := { c.cpu with registers := regs } }

/-- `VX ← VX & VY` (the Rust method is named `and`). -/
def andr (c : Chip8Core) (x y : Nat) : Chip8Core :=
  let regs := updateFn c.cpu.registers x (c.cpu.registers x &&& c.cpu.registers y)
  { c with cpu := { c.cpu with registers := regs } }

/-- `VX ← VX ^ VY` (the Rust method is named `xor`). -/
def xorr (c : Chip8Core) (x y : Nat) : Chip8Core :=
  let regs := updateFn c.cpu.registers x (c.cpu.registers x ^^^ c.cpu.registers y)
  { c with cpu := { c.cpu with registers := regs } }

/-- `VX ←` random byte AND `NN` (`rand`); consumes one ambient RNG byte. -/
def rand (c : Chip8Core) (x n : Nat) : Chip8Core :=
  let regs := updateFn c.cpu.registers x (c.rng c.rng_idx % 256 &&& n)
  { c with cpu := { c.cpu with registers := regs }, rng_idx := c.rng_idx + 1 }

/-- `BCD` (`bcd`): for `i in 0..=2`, write digit `VX / 10^(2-i) % 10` at
address `I + i`.  The loop is `(List.range 3)` with `i` ascending. -/
def bcd (c : Chip8Core) (x : Nat) : Option Chip8Core := do
  let x_val := c.cpu.registers x
  let m ← (List.range 3).foldlM
      (fun m i => memWrite m (c.cpu.i_register + i) (x_val / 10 ^ (2 - i) % 10))
      c.cpu.memory
  pure { c with cpu := { c.cpu with memory := m } }

/-- The `for reg in 0..=x` body of `save`: write `f 0, f 1, ..., f (cnt-1)` at
addresses `base, base+1, ...`, in ascending order (the recursive call performs
the earlier writes first). -/
def writeRange (base : Nat) (f : Nat → Nat) : Nat → (Nat → Nat) → Option (Nat → Nat)
  | 0, m => some m
  | k + 1, m => do
    let m' ← writeRange base f k m
    memWrite m' (base + k) (f k)

/-- The `for reg in 0..=x` body of `load`: set register `k` from address
`base + k` for `k < cnt`, in ascending order. -/
def readRange (m : Nat → Nat) (base : Nat) : Nat → (Nat → Nat) → Option (Nat → Nat)
  | 0, regs => some regs
  | k + 1, regs => do
    let regs' ← readRange m base k regs
    let v ← memRead m (base + k)
    pure (updateFn regs' k v)

/-- `SAVE` (`save`): copy `V0..VX` to memory at `I..I+X`; afterwards
`I += X + 1` unless the memory quirk is active. -/
def save (c : Chip8Core) (x : Nat) : Option Chip8Core := do
  let m' ← writeRange c.cpu.i_register c.cpu.registers (x + 1) c.cpu.memory
  let i' := if c.quirk_memory then c.cpu.i_register else c.cpu.i_register + x + 1
  pure { c with cpu := { c.cpu with memory := m', i_register := i' } }

/-- `LOAD` (`load`): fill `V0..VX` from memory at `I..I+X`; afterwards
`I += X + 1` unless the memory quirk is active. -/
def load (c : Chip8Core) (x : Nat) : Option Chip8Core := do
  let regs' ← readRange c.cpu.memory c.cpu.i_register (x + 1) c.cpu.registers
  let i' := if c.quirk_memory then c.cpu.i_register else c.cpu.i_register + x + 1
  pure { c with cpu := { c.cpu with registers := regs', i_register := i' } }

/-- `SAVEF` (`savef`): persist `V0..VX` to the flags file; no-op for `X > 7`.
File creation always succeeds in the model (failure is a silent no-op). -/
def savef (c : Chip8Core) (x : Nat) : Chip8Core :=
  if x > 7 then c
  else { c with flags_file := some ((List.range (x + 1)).map c.cpu.registers) }

/-- `LOADF` (`loadf`): restore `V0..VX` from the flags file; no-op for `X > 7`,
for a missing file, and (modelling the failed `read_exact`) for a short file. -/
def loadf (c : Chip8Core) (x : Nat) : Chip8Core :=
  if x > 7 then c
  else
    match c.flags_file with
    | none => c
    | some bytes =>
      if x + 1 ≤ bytes.length then
        { c with cpu := { c.cpu with registers :=
            fun j => if j ≤ x then bytes.getD j 0 else c.cpu.registers j } }
      else c

/-- One sprite bit against one frame-buffer cell: accumulate the
white-to-black collision bit, then XOR the cell (`row_black |= ...; ^=`). -/
def drawCell (rowIdx colIdx : Nat) (spriteBit : Bool)
    (acc : (Nat → Nat → Bool) × Bool) : (Nat → Nat → Bool) × Bool :=
  let cell := acc.1 rowIdx colIdx
  (updateFb acc.1 rowIdx colIdx (Bool.xor cell spriteBit),
   acc.2 || (cell && spriteBit))

/-- One horizontal pass of `draw` over a frame-buffer row: for each sprite
column `j < width`, take bit `j` of the 16-bit sprite word (most significant
bit first) and XOR it into the `scale` cells starting at `xval + j * scale`. -/
def drawRowPass (xval scale width spriteData rowIdx : Nat)
    (acc : (Nat → Nat → Bool) × Bool) : (Nat → Nat → Bool) × Bool :=
  (List.range width).foldl
    (fun a j =>
      let spriteBit := (spriteData >>> (15 - j)) &&& 1 == 1
      (List.range scale).foldl
        (fun a' offj => drawCell rowIdx (xval + j * scale + offj) spriteBit a')
        a)
    acc

/-- One sprite row of `draw`: fetch one byte (or two, for a 16×16 sprite) at
`I + i * addrScale`, XOR it into the `scale` frame-buffer rows starting at
`yval + i * scale`, and fold the row collision bit into the running `black`
value (saturating `|||` in low resolution, a count in high resolution). -/
def drawRow (m : Nat → Nat) (i_reg : Nat) (hiRes largeSprite : Bool)
    (addrScale columns xval yval scale i : Nat)
    (acc : (Nat → Nat → Bool) × Nat) : Option ((Nat → Nat → Bool) × Nat) := do
  let baseAddr := i_reg + i * addrScale
  let spriteData ←
    if largeSprite then do
      let hi ← memRead m baseAddr
      let lo ← memRead m (baseAddr + 1)
      pure (hi * 256 + lo)
    else do
      let hi ← memRead m baseAddr
      pure (hi * 256)
  let width := min columns ((128 - xval) / scale)
  let fbRow := (List.range scale).foldl
      (fun a offi => drawRowPass xval scale width spriteData (yval + i * scale + offi) a)
      (acc.1, false)
  let blackBit : Nat := if fbRow.2 then 1 else 0
  let black := if hiRes then acc.2 + blackBit else acc.2 ||| blackBit
  pure (fbRow.1, black)

/-- `DRAW` (`draw`): draw the `N`-row sprite at `(VX, VY)`.  In low-resolution
mode coordinates and sprite pixels are scaled ×2 into the 128×64 buffer;
in high-resolution mode `N = 0` draws a 16×16 sprite.  `VF` is set to the
accumulated `black` value plus the number of bottom-clipped rows. -/
def draw (c : Chip8Core) (x y n0 : Nat) : Option Chip8Core := do
  let largeSprite := c.high_resolution && n0 == 0
  let columns := if largeSprite then 16 else 8
  let addrScale : Nat := if largeSprite then 2 else 1
  let n := if largeSprite then 16 else n0
  let xval := c.cpu.registers x * (if c.high_resolution then 1 else 2) % 128
  let yval := c.cpu.registers y * (if c.high_resolution then 1 else 2) % 64
  let scale : Nat := if c.high_resolution then 1 else 2
  let height := min n ((64 - yval) / scale)
  let res ← (List.range height).foldlM
      (fun a i => drawRow c.cpu.memory c.cpu.i_register c.high_resolution
        largeSprite addrScale columns xval yval scale i a)
      (c.frame_buffer, 0)
  let black := res.2 + (n - height)
  let regs := updateFn c.cpu.registers 15 black
  pure { c with frame_buffer := res.1, cpu := { c.cpu with registers := regs } }

/-- The instruction tags of the dispatch table in `Cpu::create_instructions`. -/
inductive OpName where
  | NOP | SCD | CLS | RET | SCR | SCL | EXIT | LORES | HIRES
  | JMP | CALL | SKPEQ | SKPNE | SKPEQR | MOV | ADD
  | MOVR | OR | AND | XOR | ADDR | SUBR | SHR | RSUBR | SHL
  | SKPNER | MOVI | JMPR | RAND | DRAW | SKPK | SKPNK
  | KEY | TIMR | DELR | DIGIT | LDIGIT | SNDR | ADDI | BCD
  | SAVE | LOAD | SAVEF | LOADF
  deriving DecidableEq

/-- `Cpu::decode_instruction`: a two-level match on the top nibble and, where
needed, the low byte or low nibble; every unlisted case is `NOP`. -/
def decode_instruction (instr : Nat) : OpName :=
  if instr &&& 0xF000 = 0x0000 then
    if 0x00C0 <= instr &&& 0x00FF ∧ instr &&& 0x00FF <= 0x00CF then .SCD
    else if instr &&& 0x00FF = 0x00E0 then .CLS
    else if instr &&& 0x00FF = 0x00EE then .RET
    else if instr &&& 0x00FF = 0x00FB then .SCR
    else if instr &&& 0x00FF = 0x00FC then .SCL
    else if instr &&& 0x00FF = 0x00FD then .EXIT
    else if instr &&& 0x00FF = 0x00FE then .LORES
    else if instr &&& 0x00FF = 0x00FF then .HIRES
    else .NOP
  else if instr &&& 0xF000 = 0x1000 then .JMP
  else if instr &&& 0xF000 = 0x2000 then .CALL
  else if instr &&& 0xF000 = 0x3000 then .SKPEQ
  else if instr &&& 0xF000 = 0x4000 then .SKPNE
  else if instr &&& 0xF000 = 0x5000 then .SKPEQR
  else if instr &&& 0xF000 = 0x6000 then .MOV
  else if instr &&& 0xF000 = 0x7000 then .ADD
  else if instr &&& 0xF000 = 0x8000 then
    if instr &&& 0x000F = 0x0000 then .MOVR
    else if instr &&& 0x000F = 0x0001 then .OR
    else if instr &&& 0x000F = 0x0002 then .AND
    else if instr &&& 0x000F = 0x0003 then .XOR
    else if instr &&& 0x000F = 0x0004 then .ADDR
    else if instr &&& 0x000F = 0x0005 then .SUBR
    else if instr &&& 0x000F = 0x0006 then .SHR
    else if instr &&& 0x000F = 0x0007 then .RSUBR
    else if instr &&& 0x000F = 0x000E then .SHL
    else .NOP
  else if instr &&& 0xF000 = 0x9000 then .SKPNER
  else if instr &&& 0xF000 = 0xA000 then .MOVI
  else if instr &&& 0xF000 = 0xB000 then .JMPR
  else if instr &&& 0xF000 = 0xC000 then .RAND
  else if instr &&& 0xF000 = 0xD000 then .DRAW
  else if instr &&& 0xF000 = 0xE000 then
    if instr &&& 0x00FF = 0x009E then .SKPK
    else if instr &&& 0x00FF = 0x00A1 then .SKPNK
    else .NOP
  else if instr &&& 0xF000 = 0xF000 then
    if instr &&& 0x00FF = 0x000A then .KEY
    else if instr &&& 0x00FF = 0x0007 then .TIMR
    else if instr &&& 0x00FF = 0x0015 then .DELR
    else if instr &&& 0x00FF = 0x0018 then .SNDR
    else if instr &&& 0x00FF = 0x001E then .ADDI
    else if instr &&& 0x00FF = 0x0029 then .DIGIT
    else if instr &&& 0x00FF = 0x0030 then .LDIGIT
    else if instr &&& 0x00FF = 0x0033 then .BCD
    else if instr &&& 0x00FF = 0x0055 then .SAVE
    else if instr &&& 0x00FF = 0x0065 then .LOAD
    else if instr &&& 0x00FF = 0x0075 then .SAVEF
    else if instr &&& 0x00FF = 0x0085 then .LOADF
    else .NOP
  else .NOP

/-- Apply a decoded operation to the state, extracting its operands from the
raw instruction with the per-instruction masks.  `EXIT` calls
`process::exit(0)`, so the interpreter does not continue (`none`). -/
def executeOp (c : Chip8Core) (op : OpName) (raw : Nat) : Option Chip8Core :=
  match op with
  | .NOP => some (nop c)
  | .SCD => some (scd c (argN raw))
  | .CLS => some (cls c)
  | .RET => some (ret c)
  | .SCR => some (scr c)
  | .SCL => some (scl c)
  | .EXIT => none
  | .LORES => some (lores c)
  | .HIRES => some (hires c)
  | .JMP => some (jmp c (argNNN raw))
  | .CALL => some (call c (argNNN raw))
  | .SKPEQ => some (skpeq c (argX raw) (argNN raw))
  | .SKPNE => some (skpne c (argX raw) (argNN raw))
  | .SKPEQR => some (skpeqr c (argX raw) (argY raw))
  | .MOV => some (mov c (argX raw) (argNN raw))
  | .ADD => some (add c (argX raw) (argNN raw))
  | .MOVR => some (movr c (argX raw) (argY raw))
  | .OR => some (orr c (argX raw) (argY raw))
  | .AND => some (andr c (argX raw) (argY raw))
  | .XOR => some (xorr c (argX raw) (argY raw))
  | .ADDR => some (addr c (argX raw) (argY raw))
  | .SUBR => some (subr c (argX raw) (argY raw))
  | .SHR => some (shr c (argX raw) (argY raw))
  | .RSUBR => some (rsubr c (argX raw) (argY raw))
  | .SHL => some (shl c (argX raw) (argY raw))
  | .SKPNER => some (skpner c (argX raw) (argY raw))
  | .MOVI => some (movi c (argNNN raw))
  | .JMPR => some (jmpr c (argNNN raw))
  | .RAND => some (rand c (argX raw) (argNN raw))
  | .DRAW => draw c (argX raw) (argY raw) (argN raw)
  | .SKPK => some (skpk c (argX raw))
  | .SKPNK => some (skpnk c (argX raw))
  | .KEY => some (key c (argX raw))
  | .TIMR => some (timr c (argX raw))
  | .DELR => some (delr c (argX raw))
  | .DIGIT => some (digit c (argX raw))
  | .LDIGIT => some (ldigit c (argX raw))
  | .SNDR => some (sndr c (argX raw))
  | .ADDI => some (addi c (argX raw))
  | .BCD => bcd c (argX raw)
  | .SAVE => save c (argX raw)
  | .LOAD => load c (argX raw)
  | .SAVEF => some (savef c (argX raw))
  | .LOADF => some (loadf c (argX raw))

/-- `Cpu::fetch_byte`: read the byte at `pc`, then increment `pc`. -/
def fetch_byte (cpu : Cpu) : Option (Nat × Cpu) := do
  let byte ← memRead cpu.memory cpu.pc
  pure (byte, { cpu with pc := cpu.pc + 1 })

/-- `Cpu::fetch_instruction`: two fetched bytes, most significant first. -/
def fetch_instruction (cpu : Cpu) : Option (Nat × Cpu) := do
  let msb ← fetch_byte cpu
  let lsb ← fetch_byte msb.2
  pure ((msb.1 <<< 8) ||| lsb.1, lsb.2)

/-- `Chip8Core::execute_instruction`: fetch, decode, execute. -/
def execute_instruction (c : Chip8Core) : Option Chip8Core := do
  let f ← fetch_instruction c.cpu
  executeOp { c with cpu := f.2 } (decode_instruction f.1) f.1

/-- `INSTRUCTIONS_PER_FRAME`: instructions executed per video frame. -/
def INSTRUCTIONS_PER_FRAME : Nat := 10

/-- `MAX_WAVE_IDX = SAMPLE_RATE / AUDIO_FRAME_SIZE = 48000 / 1600`. -/
def MAX_WAVE_IDX : Nat := 30

/-- The `for _ in 0..INSTRUCTIONS_PER_FRAME` loop of `run`: before each
instruction, stop if the keypress latch is set. -/
def instrLoop : Nat → Chip8Core → Option Chip8Core
  | 0, c => some c
  | k + 1, c =>
    if c.cpu.store_keypress.isSome then some c
    else
      match execute_instruction c with
      | none => none
      | some c' => instrLoop k c'

/-- Plain `m`-fold iteration of `execute_instruction` (no latch check), used
to count how many instructions a loop run executes. -/
def execIter : Nat → Chip8Core → Option Chip8Core
  | 0, c => some c
  | k + 1, c =>
    match execute_instruction c with
    | none => none
    | some c' => execIter k c'

/-- `self.keypad_state.iter().position(|&pressed| pressed)`: the lowest
pressed key index, scanning keys `0..15` in order. -/
def lowestPressed (ks : Nat → Bool) : Option Nat :=
  (List.range 16).find? (fun i => ks i)

/-- The latch resolution after the instruction loop of `run`: if the latch
holds a register index and some key is pressed, store the lowest pressed key
index in that register and clear the latch. -/
def resolveKeypress (c : Chip8Core) : Chip8Core :=
  match c.cpu.store_keypress with
  | none => c
  | some reg =>
    match lowestPressed c.keypad_state with
    | none => c
    | some val =>
      let cpu' := { c.cpu with registers := updateFn c.cpu.registers reg val,
                               store_keypress := none }
      { c with cpu := cpu' }

/-- The VM-state portion of `RetroCore::run` for one frame tick: sample the
keypad, decrement both timers (saturating), run the instruction loop, resolve
the keypress latch, advance the audio wave cursor. -/
def runTick (c0 : Chip8Core) (keys : Nat → Bool) : Option Chip8Core := do
  let c1 := { c0 with keypad_state := keys }
  let cpu1 := { c1.cpu with delay_timer := c1.cpu.delay_timer - 1,
                            sound_timer := c1.cpu.sound_timer - 1 }
  let c2 ← instrLoop INSTRUCTIONS_PER_FRAME { c1 with cpu := cpu1 }
  let c3 := resolveKeypress c2
  pure { c3 with wave_idx := (c3.wave_idx + 1) % MAX_WAVE_IDX }

/-! Concrete states used to instantiate theorems. -/

/-- A CPU with zeroed registers, memory, timers and an empty stack. -/
def zeroCpu : Cpu :=
  { registers := fun _ => 0, i_register := 0, memory := fun _ => 0,
    pc := 0x200, stack := [], store_keypress := none,
    delay_timer := 0, sound_timer := 0 }

/-- A freshly reset low-resolution core with both quirks disabled. -/
def core0 : Chip8Core :=
  { cpu := zeroCpu, frame_buffer := fun _ _ => false, high_resolution := false,
    keypad_state := fun _ => false, wave_idx := 0, quirk_memory := false,
    quirk_shift := false, rng := fun _ => 0, rng_idx := 0, flags_file := none }


/-- The number of sprite rows `draw` actually fetches and draws: `N` rows
(16 for a high-resolution 16x16 sprite), clipped at the bottom edge. -/
def drawSpriteHeight (c : Chip8Core) (y n0 : Nat) : Nat :=
  min (if c.high_resolution && n0 == 0 then 16 else n0)
    ((64 - c.cpu.registers y * (if c.high_resolution then 1 else 2) % 64) /
      (if c.high_resolution then 1 else 2))

/-- The highest memory address `draw` fetches for sprite row `i`:
`I + i` for one-byte rows, `I + 2 i + 1` for two-byte (16x16) rows. -/
def drawRowFetchEnd (c : Chip8Core) (n0 i : Nat) : Nat :=
  c.cpu.i_register + i * (if c.high_resolution && n0 == 0 then 2 else 1) +
    (if c.high_resolution && n0 == 0 then 1 else 0)

/-! Basic facts about the pointwise updates. -/

theorem updateFn_same (f : Nat → Nat) (i v : Nat) : updateFn f i v i = v := by
  simp [updateFn]

theorem updateFn_other (f : Nat → Nat) {i j : Nat} (v : Nat) (h : j ≠ i) :
    updateFn f i v j = f j := by
  simp [updateFn, h]

/-- Claim C6: for all register pairs holding 8-bit values, `ADDR` (8XY4) with
destination `X ≠ 0xF` sets `VX` to `(VX + VY) mod 256`, and for every `X`
it sets `VF` to `1` exactly when `VX + VY ≥ 256` and to `0` otherwise. -/
theorem addr_result_and_carry (c : Chip8Core) (x y : Nat)
    (hvx : c.cpu.registers x < 256) (hvy : c.cpu.registers y < 256) :
    (x ≠ 15 →
      (addr c x y).cpu.registers x = (c.cpu.registers x + c.cpu.registers y) % 256) ∧
    (addr c x y).cpu.registers 15 =
      (if 256 ≤ c.cpu.registers x + c.cpu.registers y then 1 else 0) := by
  constructor
  · intro hx
    simp [addr, overflowingAdd8, updateFn, hx]
  · simp [addr, overflowingAdd8, updateFn]

/-- Witness for `addr_result_and_carry`: `V2 = 255`, `V3 = 20` gives
`V2 = 19` and `VF = 1`. -/
theorem addr_result_and_carry_w :
    (addr { core0 with cpu := { core0.cpu with
        registers := updateFn (updateFn core0.cpu.registers 2 255) 3 20 } } 2 3).cpu.registers 2
        = 19 ∧
    (addr { core0 with cpu := { core0.cpu with
        registers := updateFn (updateFn core0.cpu.registers 2 255) 3 20 } } 2 3).cpu.registers 15
        = 1 := by
  have h := addr_result_and_carry { core0 with cpu := { core0.cpu with
      registers := updateFn (updateFn core0.cpu.registers 2 255) 3 20 } } 2 3
      (by decide) (by decide)
  exact ⟨by rw [h.1 (by decide)]; decide, by rw [h.2]; decide⟩

set_option maxRecDepth 2000 in
/-- Bit 7 of an 8-bit value can be taken by masking or by shifting. -/
theorem and128_shr7_eq (s : Nat) (h : s < 256) : (s &&& 0x80) >>> 7 = s >>> 7 := by
  revert h
  revert s
  decide

/-- Claim C7: for `SHR` (8XY6) and `SHL` (8XYE) with destination `X ≠ 0xF`,
the shift source is `VY` without the shift quirk and `VX` with it; `VX`
becomes the source shifted by one bit (left shifts wrap mod 256), and `VF` is
the bit shifted out of the source (bit 0 for `SHR`, bit 7 for `SHL`). -/
theorem shift_source_and_flag (c : Chip8Core) (x y : Nat) (hx : x ≠ 15)
    (hsrc : (if c.quirk_shift then c.cpu.registers x else c.cpu.registers y) < 256) :
    (shr c x y).cpu.registers x =
      (if c.quirk_shift then c.cpu.registers x else c.cpu.registers y) >>> 1 ∧
    (shr c x y).cpu.registers 15 =
      (if c.quirk_shift then c.cpu.registers x else c.cpu.registers y) &&& 1 ∧
    (shl c x y).cpu.registers x =
      ((if c.quirk_shift then c.cpu.registers x else c.cpu.registers y) <<< 1) % 256 ∧
    (shl c x y).cpu.registers 15 =
      (if c.quirk_shift then c.cpu.registers x else c.cpu.registers y) >>> 7 := by
  refine ⟨?_, ?_, ?_, ?_⟩
  · simp [shr, updateFn]
  · simp [shr, updateFn, Ne.symm hx]
  · simp [shl, updateFn]
  · rw [← and128_shr7_eq _ hsrc]
    simp [shl, updateFn, Ne.symm hx]

/-- Witness for `shift_source_and_flag`: quirk off, `V2 = 0x81`, `SHR`/`SHL`
with `X = 1`, `Y = 2` give `V1 = 0x40 / 0x02` and `VF = 1`. -/
theorem shift_source_and_flag_w :
    (shr { core0 with cpu := { core0.cpu with
        registers := updateFn core0.cpu.registers 2 0x81 } } 1 2).cpu.registers 1 = 0x40 ∧
    (shr { core0 with cpu := { core0.cpu with
        registers := updateFn core0.cpu.registers 2 0x81 } } 1 2).cpu.registers 15 = 1 ∧
    (shl { core0 with cpu := { core0.cpu with
        registers := updateFn core0.cpu.registers 2 0x81 } } 1 2).cpu.registers 1 = 0x02 ∧
    (shl { core0 with cpu := { core0.cpu with
        registers := updateFn core0.cpu.registers 2 0x81 } } 1 2).cpu.registers 15 = 1 := by
  have h := shift_source_and_flag { core0 with cpu := { core0.cpu with
      registers := updateFn core0.cpu.registers 2 0x81 } } 1 2 (by decide) (by decide)
  refine ⟨?_, ?_, ?_, ?_⟩
  · rw [h.1]; decide
  · rw [h.2.1]; decide
  · rw [h.2.2.1]; decide
  · rw [h.2.2.2]; decide

/-- Claim C1 (failing input): `SHR` with destination `X = 0xF` leaves `VF`
holding the shifted result (1), not the shifted-out bit of the source
(`V0 = 2`, whose bit 0 is 0); `SHL` with `X = 0xF` and source `V0 = 0x81`
leaves `VF = 2` (the wrapped shift result), not the shifted-out bit 1.
The flag write happens first, so the destination write wins. -/
theorem shift_aliased_vf_holds_result :
    (shr { core0 with cpu := { core0.cpu with
        registers := updateFn core0.cpu.registers 0 2 } } 15 0).cpu.registers 15 = 1 ∧
    (updateFn core0.cpu.registers 0 2) 0 &&& 0x01 = 0 ∧
    (shl { core0 with cpu := { core0.cpu with
        registers := updateFn core0.cpu.registers 0 0x81 } } 15 0).cpu.registers 15 = 2 ∧
    ((updateFn core0.cpu.registers 0 0x81) 0 &&& 0x80) >>> 7 = 1 := by
  decide

/-- Claim C2 (failing input): in low-resolution mode, drawing a 5-row sprite
at `VY = 31` (frame-buffer row 62) from zeroed memory over a blank screen
turns no pixel off, yet the code sets `VF = 4`: the four bottom-clipped rows
are added to `VF` even though the mode is low resolution. -/
theorem draw_lowres_clip_sets_vf_above_one :
    (draw { core0 with cpu := { core0.cpu with
        registers := updateFn core0.cpu.registers 1 31, i_register := 0x300 } }
      0 1 5).map (fun t => t.cpu.registers 15) = some 4 := by
  decide

/-- Claim C9: `RET` with a non-empty stack pops the top address into the PC
and removes it from the stack; `RET` with an empty stack changes nothing. -/
theorem ret_pops_or_ignores_underflow (c : Chip8Core) :
    (∀ top rest, c.cpu.stack = top :: rest →
      ret c = { c with cpu := { c.cpu with pc := top, stack := rest } }) ∧
    (c.cpu.stack = [] → ret c = c) := by
  constructor
  · intro top rest h
    unfold ret
    rw [h]
  · intro h
    unfold ret
    rw [h]

/-- Witness for `ret_pops_or_ignores_underflow`: popping `[7, 9]` sets
`pc = 7` and leaves `[9]`; `RET` on the empty stack of `core0` is a no-op. -/
theorem ret_pops_or_ignores_underflow_w :
    ret { core0 with cpu := { core0.cpu with stack := [7, 9] } } =
      { { core0 with cpu := { core0.cpu with stack := [7, 9] } } with
        cpu := { { core0 with cpu := { core0.cpu with stack := [7, 9] } }.cpu with
                 pc := 7, stack := [9] } } ∧
    ret core0 = core0 :=
  ⟨(ret_pops_or_ignores_underflow _).1 7 [9] rfl,
   (ret_pops_or_ignores_underflow core0).2 rfl⟩

/-- Claim C10: in low-resolution mode `DRAW` with `N = 0` draws nothing:
the frame buffer is returned unchanged and `VF` is set to 0, for every
state and every pair of coordinate registers. -/
theorem draw_lowres_n0_draws_nothing (c : Chip8Core) (x y : Nat)
    (h : c.high_resolution = false) :
    draw c x y 0 = some { c with cpu := { c.cpu with
      registers := updateFn c.cpu.registers 15 0 } } := by
  simp [draw, h]

/-- Witness for `draw_lowres_n0_draws_nothing` at `core0`. -/
theorem draw_lowres_n0_draws_nothing_w :
    draw core0 3 4 0 = some { core0 with cpu := { core0.cpu with
      registers := updateFn core0.cpu.registers 15 0 } } :=
  draw_lowres_n0_draws_nothing core0 3 4 rfl

/-! Characterization of the `SAVE` / `LOAD` register-file loops. -/

theorem writeRange_some (base : Nat) (f : Nat → Nat) :
    ∀ (cnt : Nat) (m : Nat → Nat), base + cnt ≤ MEM_SIZE →
      ∃ m', writeRange base f cnt m = some m' ∧
        ∀ a, m' a = if base ≤ a ∧ a < base + cnt then f (a - base) else m a := by
  intro cnt
  induction cnt with
  | zero =>
    intro m _
    refine ⟨m, rfl, fun a => ?_⟩
    rw [if_neg (by omega)]
  | succ k ih =>
    intro m h
    obtain ⟨m1, hm1, hchar⟩ := ih m (by omega)
    refine ⟨updateFn m1 (base + k) (f k), ?_, fun a => ?_⟩
    · simp [writeRange, hm1, memWrite, show base + k < MEM_SIZE by omega]
    · by_cases ha : a = base + k
      · subst ha
        rw [updateFn_same, if_pos (by omega), Nat.add_sub_cancel_left]
      · rw [updateFn_other _ _ ha, hchar a]
        by_cases hin : base ≤ a ∧ a < base + k
        · rw [if_pos hin, if_pos (by omega)]
        · rw [if_neg hin, if_neg (by omega)]

theorem writeRange_none_iff (base : Nat) (f : Nat → Nat) :
    ∀ (cnt : Nat) (m : Nat → Nat),
      (writeRange base f (cnt + 1) m = none ↔ MEM_SIZE ≤ base + cnt) := by
  intro cnt
  induction cnt with
  | zero =>
    intro m
    simp [writeRange, memWrite]
  | succ k ih =>
    intro m
    rcases hw : writeRange base f (k + 1) m with _ | m1
    · have hk := (ih m).mp hw
      constructor
      · intro _; omega
      · intro _
        show (writeRange base f (k + 1) m).bind _ = none
        rw [hw]; rfl
    · have hk : ¬ MEM_SIZE ≤ base + k := fun hge => by
        have := (ih m).mpr hge
        rw [hw] at this
        exact Option.noConfusion this
      show (writeRange base f (k + 1) m).bind _ = none ↔ _
      rw [hw]
      simp [memWrite]

theorem readRange_some (m : Nat → Nat) (base : Nat) :
    ∀ (cnt : Nat) (regs : Nat → Nat), base + cnt ≤ MEM_SIZE →
      ∃ regs', readRange m base cnt regs = some regs' ∧
        ∀ r, regs' r = if r < cnt then m (base + r) else regs r := by
  intro cnt
  induction cnt with
  | zero =>
    intro regs _
    refine ⟨regs, rfl, fun r => ?_⟩
    rw [if_neg (by omega)]
  | succ k ih =>
    intro regs h
    obtain ⟨r1, hr1, hchar⟩ := ih regs (by omega)
    refine ⟨updateFn r1 k (m (base + k)), ?_, fun r => ?_⟩
    · simp [readRange, hr1, memRead, show base + k < MEM_SIZE by omega]
    · by_cases hr : r = k
      · subst hr
        rw [updateFn_same, if_pos (by omega)]
      · rw [updateFn_other _ _ hr, hchar r]
        by_cases hin : r < k
        · rw [if_pos hin, if_pos (by omega)]
        · rw [if_neg hin, if_neg (by omega)]

theorem readRange_none_iff (m : Nat → Nat) (base : Nat) :
    ∀ (cnt : Nat) (regs : Nat → Nat),
      (readRange m base (cnt + 1) regs = none ↔ MEM_SIZE ≤ base + cnt) := by
  intro cnt
  induction cnt with
  | zero =>
    intro regs
    simp [readRange, memRead]
  | succ k ih =>
    intro regs
    rcases hw : readRange m base (k + 1) regs with _ | r1
    · have hk := (ih regs).mp hw
      constructor
      · intro _; omega
      · intro _
        show (readRange m base (k + 1) regs).bind _ = none
        rw [hw]; rfl
    · have hk : ¬ MEM_SIZE ≤ base + k := fun hge => by
        have := (ih regs).mpr hge
        rw [hw] at this
        exact Option.noConfusion this
      show (readRange m base (k + 1) regs).bind _ = none ↔ _
      rw [hw]
      simp [memRead]


/-- A sprite-row step of `draw` aborts exactly when its highest fetched
address (`I + i * addrScale`, plus one for a two-byte row) is out of bounds. -/
theorem drawRow_none_iff (m : Nat → Nat) (i_reg : Nat) (hiRes largeSprite : Bool)
    (addrScale columns xval yval scale i : Nat) (acc : (Nat → Nat → Bool) × Nat) :
    drawRow m i_reg hiRes largeSprite addrScale columns xval yval scale i acc = none
      ↔ MEM_SIZE ≤ i_reg + i * addrScale + (if largeSprite then 1 else 0) := by
  cases largeSprite
  · by_cases h : i_reg + i * addrScale < MEM_SIZE
    · simp [drawRow, memRead, h] <;> omega
    · simp [drawRow, memRead, h] <;> omega
  · by_cases h1 : i_reg + i * addrScale < MEM_SIZE
    · by_cases h2 : i_reg + i * addrScale + 1 < MEM_SIZE
      · simp [drawRow, memRead, h1, h2] <;> omega
      · simp [drawRow, memRead, h1, h2] <;> omega
    · simp [drawRow, memRead, h1] <;> omega

/-- The sprite-row loop of `draw` aborts exactly when some drawn row has an
out-of-bounds fetch address. -/
theorem drawFold_none_iff (m : Nat → Nat) (i_reg : Nat) (hiRes largeSprite : Bool)
    (addrScale columns xval yval scale : Nat) :
    ∀ (h : Nat) (acc : (Nat → Nat → Bool) × Nat),
      ((List.range h).foldlM
          (fun a i => drawRow m i_reg hiRes largeSprite addrScale columns xval yval scale i a)
          acc = none)
        ↔ ∃ i, i < h ∧ MEM_SIZE ≤ i_reg + i * addrScale + (if largeSprite then 1 else 0) := by
  intro h
  induction h with
  | zero => intro acc; simp
  | succ k ih =>
    intro acc
    rw [List.range_succ, List.foldlM_append]
    rcases hf : (List.range k).foldlM
        (fun a i => drawRow m i_reg hiRes largeSprite addrScale columns xval yval scale i a)
        acc with _ | acc'
    · constructor
      · intro _
        obtain ⟨i, hik, hP⟩ := (ih acc).mp hf
        exact ⟨i, by omega, hP⟩
      · intro _
        rfl
    · have hnone : ¬ ∃ i, i < k ∧
          MEM_SIZE ≤ i_reg + i * addrScale + (if largeSprite then 1 else 0) := by
        intro hex
        have h2 := (ih acc).mpr hex
        rw [hf] at h2
        exact Option.noConfusion h2
      show ((drawRow m i_reg hiRes largeSprite addrScale columns xval yval scale k acc' >>=
        fun b => pure b) = none) ↔ _
      rw [bind_pure, drawRow_none_iff]
      constructor
      · intro hP
        exact ⟨k, by omega, hP⟩
      · rintro ⟨i, hik1, hP⟩
        by_cases hik : i < k
        · exact absurd ⟨i, hik, hP⟩ hnone
        · have hik' : i = k := by omega
          rw [hik'] at hP
          exact hP

/-- `draw` is the sprite-row loop followed by the pure `VF`/frame-buffer
update (the body of `draw`, with its let bindings expanded). -/
theorem draw_eq_fold (c : Chip8Core) (x y n0 : Nat) :
    draw c x y n0 = Option.bind ((List.range (drawSpriteHeight c y n0)).foldlM (fun a i => drawRow c.cpu.memory c.cpu.i_register c.high_resolution (c.high_resolution && n0 == 0) (if c.high_resolution && n0 == 0 then 2 else 1) (if c.high_resolution && n0 == 0 then 16 else 8) (c.cpu.registers x * (if c.high_resolution then 1 else 2) % 128) (c.cpu.registers y * (if c.high_resolution then 1 else 2) % 64) (if c.high_resolution then 1 else 2) i a) (c.frame_buffer, 0))
      (fun res => some { c with frame_buffer := res.1, cpu := { c.cpu with registers := updateFn c.cpu.registers 15 (res.2 + ((if c.high_resolution && n0 == 0 then 16 else n0) - drawSpriteHeight c y n0)) } }) := rfl

/-- `DRAW` aborts exactly when one of its drawn sprite rows has an
out-of-bounds fetch address. -/
theorem draw_none_iff (c : Chip8Core) (x y n0 : Nat) :
    draw c x y n0 = none ↔
      ∃ i, i < drawSpriteHeight c y n0 ∧ MEM_SIZE ≤ drawRowFetchEnd c n0 i := by
  rw [draw_eq_fold]
  rcases hf : (List.range (drawSpriteHeight c y n0)).foldlM (fun a i => drawRow c.cpu.memory c.cpu.i_register c.high_resolution (c.high_resolution && n0 == 0) (if c.high_resolution && n0 == 0 then 2 else 1) (if c.high_resolution && n0 == 0 then 16 else 8) (c.cpu.registers x * (if c.high_resolution then 1 else 2) % 128) (c.cpu.registers y * (if c.high_resolution then 1 else 2) % 64) (if c.high_resolution then 1 else 2) i a) (c.frame_buffer, 0) with _ | res
  · constructor
    · intro _
      exact (drawFold_none_iff c.cpu.memory c.cpu.i_register c.high_resolution
        (c.high_resolution && n0 == 0) (if c.high_resolution && n0 == 0 then 2 else 1)
        (if c.high_resolution && n0 == 0 then 16 else 8)
        (c.cpu.registers x * (if c.high_resolution then 1 else 2) % 128)
        (c.cpu.registers y * (if c.high_resolution then 1 else 2) % 64)
        (if c.high_resolution then 1 else 2)
        (drawSpriteHeight c y n0) (c.frame_buffer, 0)).mp hf
    · intro _
      rfl
  · constructor
    · intro hc
      simp at hc
    · intro hex
      have h2 := (drawFold_none_iff c.cpu.memory c.cpu.i_register c.high_resolution
        (c.high_resolution && n0 == 0) (if c.high_resolution && n0 == 0 then 2 else 1)
        (if c.high_resolution && n0 == 0 then 16 else 8)
        (c.cpu.registers x * (if c.high_resolution then 1 else 2) % 128)
        (c.cpu.registers y * (if c.high_resolution then 1 else 2) % 64)
        (if c.high_resolution then 1 else 2)
        (drawSpriteHeight c y n0) (c.frame_buffer, 0)).mpr hex
      exact Option.noConfusion (hf.symm.trans h2)

/-- Claim C3 (counterexample): `BCD` at `I = 4094` must write at addresses
4094, 4095 and 4096; the write at 4096 is out of bounds and execution aborts
(a Rust index panic, `none` in the model) instead of wrapping to address 0. -/
theorem bcd_at_4094_aborts :
    bcd { core0 with cpu := { core0.cpu with i_register := 4094 } } 0 = none := by
  rfl

/-- Claim C3 (amended): only the `JMP-V0` target is reduced modulo 4096.
`BCD`, `SAVE`, `LOAD`, `DRAW` sprite fetches and instruction fetch use
unmasked addresses: each completes exactly when every effective address it
touches is below 4096, and otherwise aborts (out-of-bounds panic) rather
than wrapping. -/
theorem memory_access_bounds (c : Chip8Core) (x n y n0 : Nat) :
    (jmpr c n).cpu.pc < MEM_SIZE ∧
    (bcd c x = none ↔ MEM_SIZE ≤ c.cpu.i_register + 2) ∧
    (save c x = none ↔ MEM_SIZE ≤ c.cpu.i_register + x) ∧
    (load c x = none ↔ MEM_SIZE ≤ c.cpu.i_register + x) ∧
    (fetch_instruction c.cpu = none ↔ MEM_SIZE ≤ c.cpu.pc + 1) ∧
    (draw c x y n0 = none ↔
      ∃ i, i < drawSpriteHeight c y n0 ∧ MEM_SIZE ≤ drawRowFetchEnd c n0 i) := by
  refine ⟨?_, ?_, ?_, ?_, ?_, draw_none_iff c x y n0⟩
  · exact Nat.mod_lt _ (by decide)
  · have h3 : List.range 3 = [0, 1, 2] := rfl
    simp only [bcd, h3, List.foldlM_cons, List.foldlM_nil, memWrite, bind, Option.bind]
    split_ifs <;> simp <;> omega
  · rcases hw : writeRange c.cpu.i_register c.cpu.registers (x + 1) c.cpu.memory
      with _ | m1
    · have := (writeRange_none_iff c.cpu.i_register c.cpu.registers x c.cpu.memory).mp hw
      simp [save, hw]
      omega
    · have : ¬ MEM_SIZE ≤ c.cpu.i_register + x := fun hge => by
        have h2 := (writeRange_none_iff c.cpu.i_register c.cpu.registers x c.cpu.memory).mpr hge
        rw [hw] at h2
        exact Option.noConfusion h2
      simp [save, hw]
      omega
  · rcases hr : readRange c.cpu.memory c.cpu.i_register (x + 1) c.cpu.registers
      with _ | r1
    · have := (readRange_none_iff c.cpu.memory c.cpu.i_register x c.cpu.registers).mp hr
      simp [load, hr]
      omega
    · have : ¬ MEM_SIZE ≤ c.cpu.i_register + x := fun hge => by
        have h2 := (readRange_none_iff c.cpu.memory c.cpu.i_register x c.cpu.registers).mpr hge
        rw [hr] at h2
        exact Option.noConfusion h2
      simp [load, hr]
      omega
  · by_cases h1 : c.cpu.pc < MEM_SIZE
    · by_cases h2 : c.cpu.pc + 1 < MEM_SIZE
      · simp [fetch_instruction, fetch_byte, memRead, h1, h2] <;> omega
      · simp [fetch_instruction, fetch_byte, memRead, h1, h2] <;> omega
    · simp [fetch_instruction, fetch_byte, memRead, h1] <;> omega

/-- Claim C4 (counterexample): without the memory quirk, `SAVE` advances `I`
to `I + X + 1`, so the immediately following `LOAD` reads from the advanced
address: with `V0 = 5`, `I = 0x400` and zeroed memory, `SAVE 0` then `LOAD 0`
leaves `V0 = 0`, not the saved 5. -/
theorem save_then_load_no_quirk_loses_v0 :
    ((save { core0 with cpu := { core0.cpu with
        registers := updateFn core0.cpu.registers 0 5, i_register := 0x400 } } 0).bind
      (fun c1 => load c1 0)).map (fun t => t.cpu.registers 0) = some 0 ∧
    (updateFn core0.cpu.registers 0 5) 0 = 5 := by
  constructor
  · rfl
  · rfl

/-- Claim C4 (amended): with the memory quirk enabled, `SAVE` then `LOAD`
with the same `X` restores `V0..VX` and leaves `I` unchanged by both
operations; with the quirk disabled, each of `SAVE` and `LOAD` sets `I` to
`I + X + 1` afterwards (and the pair therefore reads back from the advanced
address rather than restoring). -/
theorem save_load_quirk_roundtrip (c : Chip8Core) (x : Nat) (hx : x < 16)
    (hb : c.cpu.i_register + x < MEM_SIZE) :
    (c.quirk_memory = true →
      ∃ c1 c2, save c x = some c1 ∧ load c1 x = some c2 ∧
        c1.cpu.i_register = c.cpu.i_register ∧
        c2.cpu.i_register = c.cpu.i_register ∧
        ∀ r, r ≤ x → c2.cpu.registers r = c.cpu.registers r) ∧
    (c.quirk_memory = false →
      (∃ c1, save c x = some c1 ∧ c1.cpu.i_register = c.cpu.i_register + x + 1) ∧
      (∃ c1, load c x = some c1 ∧ c1.cpu.i_register = c.cpu.i_register + x + 1)) := by
  obtain ⟨m', hw, hwchar⟩ :=
    writeRange_some c.cpu.i_register c.cpu.registers (x + 1) c.cpu.memory (by omega)
  obtain ⟨regs0, hr0, _⟩ :=
    readRange_some c.cpu.memory c.cpu.i_register (x + 1) c.cpu.registers (by omega)
  constructor
  · intro hq
    obtain ⟨regs', hr, hrchar⟩ :=
      readRange_some m' c.cpu.i_register (x + 1) c.cpu.registers (by omega)
    refine ⟨{ c with cpu := { c.cpu with memory := m', i_register := c.cpu.i_register } }, { c with cpu := { c.cpu with memory := m', registers := regs', i_register := c.cpu.i_register } }, by simp [save, hw, hq], by simp [load, hr, hq], rfl, rfl, ?_⟩
    intro r hr16
    have h1 : regs' r = m' (c.cpu.i_register + r) := by
      rw [hrchar r, if_pos (by omega)]
    have h2 : m' (c.cpu.i_register + r) = c.cpu.registers r := by
      rw [hwchar _, if_pos (by omega), Nat.add_sub_cancel_left]
    simpa [h2] using h1
  · intro hq
    refine ⟨⟨{ c with cpu := { c.cpu with memory := m', i_register := c.cpu.i_register + x + 1 } }, by simp [save, hw, hq], rfl⟩, ⟨{ c with cpu := { c.cpu with registers := regs0, i_register := c.cpu.i_register + x + 1 } }, by simp [load, hr0, hq], rfl⟩⟩

/-- Witness for `save_load_quirk_roundtrip`: a quirk-enabled core and the
quirk-free `core0`, both with `I = 0x400` and `X = 2`. -/
theorem save_load_quirk_roundtrip_w :
    (∃ c1 c2,
      save { core0 with quirk_memory := true, cpu := { core0.cpu with i_register := 0x400 } } 2 = some c1 ∧
      load c1 2 = some c2 ∧
      c1.cpu.i_register = 0x400 ∧ c2.cpu.i_register = 0x400 ∧
      ∀ r, r ≤ 2 → c2.cpu.registers r = core0.cpu.registers r) ∧
    ((∃ c1, save { core0 with cpu := { core0.cpu with i_register := 0x400 } } 2 = some c1 ∧
        c1.cpu.i_register = 0x403) ∧
     (∃ c1, load { core0 with cpu := { core0.cpu with i_register := 0x400 } } 2 = some c1 ∧
        c1.cpu.i_register = 0x403)) :=
  ⟨(save_load_quirk_roundtrip
      { core0 with quirk_memory := true, cpu := { core0.cpu with i_register := 0x400 } }
      2 (by decide) (by decide)).1 rfl,
   (save_load_quirk_roundtrip
      { core0 with cpu := { core0.cpu with i_register := 0x400 } }
      2 (by decide) (by decide)).2 rfl⟩

/-- Claim C5 (counterexample): `0x5AB1` is a `5XYk` encoding with
`k = 1 ≠ 0`, yet it does not decode to `NOP` (the decoder ignores the low
nibble of `5XYk` and returns `SKPEQR`). -/
theorem decode_5XY1_not_nop : ¬ (decode_instruction 0x5AB1 = OpName.NOP) := by
  decide

/-- Claim C5 (amended): the decoder is a total function; unlisted `0x00NN`,
`0x8XYk`, `0xEXNN` and `0xFXNN` encodings decode to `NOP`, but `0x5XYk` and
`0x9XYk` decode to `SKPEQR` / `SKPNER` for every low nibble `k`, not only
for `k = 0`. -/
theorem decode_unlisted_dispatch (i : Nat) :
    (i &&& 0xF000 = 0x5000 → decode_instruction i = OpName.SKPEQR) ∧
    (i &&& 0xF000 = 0x9000 → decode_instruction i = OpName.SKPNER) ∧
    (i &&& 0xF000 = 0x0000 →
      ¬ (0x00C0 ≤ i &&& 0x00FF ∧ i &&& 0x00FF ≤ 0x00CF) →
      i &&& 0x00FF ∉ ([0xE0, 0xEE, 0xFB, 0xFC, 0xFD, 0xFE, 0xFF] : List Nat) →
      decode_instruction i = OpName.NOP) ∧
    (i &&& 0xF000 = 0x8000 → 8 ≤ i &&& 0x000F → i &&& 0x000F ≠ 0xE →
      decode_instruction i = OpName.NOP) ∧
    (i &&& 0xF000 = 0xE000 → i &&& 0x00FF ≠ 0x9E → i &&& 0x00FF ≠ 0xA1 →
      decode_instruction i = OpName.NOP) ∧
    (i &&& 0xF000 = 0xF000 →
      i &&& 0x00FF ∉ ([0x0A, 0x07, 0x15, 0x18, 0x1E, 0x29, 0x30, 0x33, 0x55, 0x65, 0x75, 0x85] : List Nat) →
      decode_instruction i = OpName.NOP) := by
  refine ⟨?_, ?_, ?_, ?_, ?_, ?_⟩
  · intro h
    unfold decode_instruction
    rw [h]
    rfl
  · intro h
    unfold decode_instruction
    rw [h]
    rfl
  · intro h hC hlist
    simp only [List.mem_cons, List.not_mem_nil, or_false, not_or] at hlist
    obtain ⟨h1, h2, h3, h4, h5, h6, h7⟩ := hlist
    unfold decode_instruction
    rw [h]
    rw [if_pos rfl, if_neg hC, if_neg h1, if_neg h2, if_neg h3, if_neg h4, if_neg h5,
        if_neg h6, if_neg h7]
  · intro h h8 hE
    have hb0 : ¬ (i &&& 0x000F = 0x0000) := by omega
    have hb1 : ¬ (i &&& 0x000F = 0x0001) := by omega
    have hb2 : ¬ (i &&& 0x000F = 0x0002) := by omega
    have hb3 : ¬ (i &&& 0x000F = 0x0003) := by omega
    have hb4 : ¬ (i &&& 0x000F = 0x0004) := by omega
    have hb5 : ¬ (i &&& 0x000F = 0x0005) := by omega
    have hb6 : ¬ (i &&& 0x000F = 0x0006) := by omega
    have hb7 : ¬ (i &&& 0x000F = 0x0007) := by omega
    unfold decode_instruction
    rw [h]
    rw [if_neg hb0, if_neg hb1, if_neg hb2, if_neg hb3, if_neg hb4, if_neg hb5,
        if_neg hb6, if_neg hb7, if_neg hE]
    rfl
  · intro h h9E hA1
    unfold decode_instruction
    rw [h]
    rw [if_neg h9E, if_neg hA1]
    rfl
  · intro h hlist
    simp only [List.mem_cons, List.not_mem_nil, or_false, not_or] at hlist
    obtain ⟨h1, h2, h3, h4, h5, h6, h7, h8, h9, h10, h11, h12⟩ := hlist
    unfold decode_instruction
    rw [h]
    rw [if_neg h1, if_neg h2, if_neg h3, if_neg h4, if_neg h5, if_neg h6, if_neg h7,
        if_neg h8, if_neg h9, if_neg h10, if_neg h11, if_neg h12]
    rfl

/-- Witness for `decode_unlisted_dispatch` on one member of each family. -/
theorem decode_unlisted_dispatch_w :
    decode_instruction 0x5123 = OpName.SKPEQR ∧
    decode_instruction 0x9AB7 = OpName.SKPNER ∧
    decode_instruction 0x0012 = OpName.NOP ∧
    decode_instruction 0x8AB9 = OpName.NOP ∧
    decode_instruction 0xE144 = OpName.NOP ∧
    decode_instruction 0xF1FF = OpName.NOP :=
  ⟨(decode_unlisted_dispatch 0x5123).1 (by decide),
   (decode_unlisted_dispatch 0x9AB7).2.1 (by decide),
   (decode_unlisted_dispatch 0x0012).2.2.1 (by decide) (by decide) (by decide),
   (decode_unlisted_dispatch 0x8AB9).2.2.2.1 (by decide) (by decide) (by decide),
   (decode_unlisted_dispatch 0xE144).2.2.2.2.1 (by decide) (by decide) (by decide),
   (decode_unlisted_dispatch 0xF1FF).2.2.2.2.2 (by decide) (by decide)⟩

/-! The run-loop keypress latch (claim C8). -/

/-- With the latch set, the instruction loop executes nothing. -/
theorem instrLoop_latched (k : Nat) (c : Chip8Core)
    (h : c.cpu.store_keypress.isSome = true) : instrLoop k c = some c := by
  cases k with
  | zero => rfl
  | succ k => simp [instrLoop, h]

/-- Every run of the instruction loop executes `m ≤ k` instructions. -/
theorem instrLoop_execIter : ∀ (k : Nat) (c : Chip8Core),
    ∃ m, m ≤ k ∧ instrLoop k c = execIter m c := by
  intro k
  induction k with
  | zero => exact fun c => ⟨0, Nat.le_refl 0, rfl⟩
  | succ k ih =>
    intro c
    by_cases h : c.cpu.store_keypress.isSome
    · exact ⟨0, Nat.zero_le _, by simp [instrLoop, h, execIter]⟩
    · rcases he : execute_instruction c with _ | c'
      · refine ⟨1, by omega, ?_⟩
        simp [instrLoop, h, he, execIter]
      · obtain ⟨m, hm, hl⟩ := ih c'
        refine ⟨m + 1, by omega, ?_⟩
        simp [instrLoop, h, he, execIter, hl]

/-- If key `p` is pressed and all lower-numbered keys are up, the keypad scan
finds `p`. -/
theorem lowestPressed_spec (ks : Nat → Bool) (p : Nat) (hp : p < 16)
    (hks : ks p = true) (hmin : ∀ j, j < p → ks j = false) :
    lowestPressed ks = some p := by
  unfold lowestPressed
  rw [List.find?_eq_some_iff_getElem]
  refine ⟨hks, p, by simpa using hp, by simp, ?_⟩
  intro j hj
  simp [List.getElem_range, hmin j hj]

/-- If no key is pressed, the keypad scan finds nothing. -/
theorem lowestPressed_none (ks : Nat → Bool) (h : ∀ j, j < 16 → ks j = false) :
    lowestPressed ks = none := by
  unfold lowestPressed
  rw [List.find?_eq_none]
  intro x hx
  simp only [List.mem_range] at hx
  simp [h x hx]

/-- Claim C8: once the keypress latch is set, the instruction loop executes
no further instructions in the tick; every tick runs at most
`INSTRUCTIONS_PER_FRAME = 10` instructions; after the loop, a set latch with
some key pressed stores the lowest pressed key index in the latched register
and clears the latch, while a set latch with no key pressed leaves the state
unchanged. -/
theorem run_loop_latch_behavior (c : Chip8Core) :
    (∀ k, c.cpu.store_keypress.isSome = true → instrLoop k c = some c) ∧
    (∃ m, m ≤ INSTRUCTIONS_PER_FRAME ∧
      instrLoop INSTRUCTIONS_PER_FRAME c = execIter m c) ∧
    (∀ reg, c.cpu.store_keypress = some reg →
      (∀ j, j < 16 → c.keypad_state j = false) → resolveKeypress c = c) ∧
    (∀ reg p, c.cpu.store_keypress = some reg → p < 16 →
      c.keypad_state p = true → (∀ j, j < p → c.keypad_state j = false) →
      (resolveKeypress c).cpu.registers reg = p ∧
      (resolveKeypress c).cpu.store_keypress = none) := by
  refine ⟨fun k h => instrLoop_latched k c h, instrLoop_execIter _ c, ?_, ?_⟩
  · intro reg hs hnone
    simp only [resolveKeypress, hs, lowestPressed_none c.keypad_state hnone]
  · intro reg p hs hp hks hmin
    simp only [resolveKeypress, hs, lowestPressed_spec c.keypad_state p hp hks hmin]
    exact ⟨updateFn_same c.cpu.registers reg p, trivial⟩

/-- Witness for `run_loop_latch_behavior`: a latched core with no key pressed
(the loop and the latch resolution leave it unchanged) and a latched core
with key 5 pressed (register 2 receives 5 and the latch clears). -/
theorem run_loop_latch_behavior_w :
    instrLoop 10 { core0 with cpu := { core0.cpu with store_keypress := some 3 } } =
      some { core0 with cpu := { core0.cpu with store_keypress := some 3 } } ∧
    resolveKeypress { core0 with cpu := { core0.cpu with store_keypress := some 3 } } =
      { core0 with cpu := { core0.cpu with store_keypress := some 3 } } ∧
    (resolveKeypress { core0 with keypad_state := fun j => j == 5, cpu := { core0.cpu with store_keypress := some 2 } }).cpu.registers 2 = 5 ∧
    (resolveKeypress { core0 with keypad_state := fun j => j == 5, cpu := { core0.cpu with store_keypress := some 2 } }).cpu.store_keypress = none := by
  have hA := run_loop_latch_behavior
    { core0 with cpu := { core0.cpu with store_keypress := some 3 } }
  have hB := run_loop_latch_behavior
    { core0 with keypad_state := fun j => j == 5, cpu := { core0.cpu with store_keypress := some 2 } }
  have hB2 := hB.2.2.2 2 5 rfl (by decide) (by decide) (by decide)
  exact ⟨hA.1 10 rfl, hA.2.2.1 3 rfl (by decide), hB2.1, hB2.2⟩

end Chip8
